import Mathlib

/-!
Verification of the wingfoil dataflow-stream library against its
natural-language specification.

The repository has two layers:

* a Python binding layer (`python/wingfoil/stream.py`,
  `python/wingfoil/pandas_helpers.py`) whose code is present and is
  embedded here definition by definition;
* the core dataflow engine (the `_wingfoil` native extension: nodes,
  scheduler, operator catalog), whose source is not part of the Python
  package tree.  Where a claim depends on the engine, the engine is
  modelled from the specification (sections 4.3 and 4.4): each such
  definition carries a doc comment starting with `Modelled from the
  spec:`.
-/

namespace Wingfoil

/-! ## Embedding of `python/wingfoil/stream.py` -/

/-- Opaque handle standing for a `Stream[Any]` upstream reference held by a
`CustomStream`; the Python object identity is abstracted to a number. -/
abbrev StreamRef := Nat

/-- State of a `CustomStream` instance: the fields set by
`CustomStream.__init__` (`self._value`, `self._upstreams`). -/
structure CustomState where
  value : Option Int
  upstreamRefs : List StreamRef
deriving DecidableEq, Repr

/-- Embedding of `CustomStream.__init__`: `self._value = None`;
`self._upstreams = list(upstreams) if upstreams else []` (a `None`
argument, like an empty iterable, yields `[]`). -/
def CustomStream_init (upstreams : Option (List StreamRef)) : CustomState :=
  { value := none, upstreamRefs := upstreams.getD [] }

/-- The object returned by `CustomStream.__new__`: either the
user-constructed Python object itself, or the `Stream` proxy produced by
`Stream(obj)` wrapping that object. -/
inductive PyStreamHandle where
  | userObject (obj : CustomState)
  | streamProxy (obj : CustomState)
deriving DecidableEq, Repr

/-- Embedding of `CustomStream.__new__`: it constructs the instance, runs
`__init__` on it, wraps the instance in a `Stream` proxy (`proxy =
Stream(obj)`) and returns the proxy, not the instance. -/
def CustomStream_new (upstreams : Option (List StreamRef)) : PyStreamHandle :=
  let obj := CustomStream_init upstreams
  PyStreamHandle.streamProxy obj

/-- Embedding of `CustomStream.upstreams`: returns `self._upstreams`. -/
def CustomStream_upstreams (s : CustomState) : List StreamRef :=
  s.upstreamRefs

/-- Embedding of the default `CustomStream.cycle`: unconditionally
`raise Exception("cycle must be implemented in derived class")`. -/
def CustomStream_cycle (_ : CustomState) : Except String (CustomState × Bool) :=
  Except.error "cycle must be implemented in derived class"

/-- Embedding of `CustomStream.peek`: returns `self._value`. -/
def CustomStream_peek (s : CustomState) : Option Int :=
  s.value

/-- Embedding of `CustomStream.set_value`: `self._value = value`. -/
def CustomStream_set_value (s : CustomState) (v : Int) : CustomState :=
  { s with value := some v }

/-- The method calls available on a constructed `CustomStream` that return
normally (the default `cycle` raises and so never completes a state
transition; it is excluded). -/
inductive CSOp where
  | set_value (v : Int)
  | peek
  | upstreams
deriving DecidableEq, Repr

/-- State transition of one method call: only `set_value` mutates the
instance; `peek` and `upstreams` are reads. -/
def CustomStream_apply (s : CustomState) : CSOp → CustomState
  | CSOp.set_value v => CustomStream_set_value s v
  | CSOp.peek => s
  | CSOp.upstreams => s

/-- Whether an operation list contains a `set_value` call. -/
def hasSetValue : List CSOp → Bool
  | [] => false
  | CSOp.set_value _ :: _ => true
  | _ :: rest => hasSetValue rest

theorem value_const_of_no_set_value :
    ∀ (ops : List CSOp) (s : CustomState), hasSetValue ops = false →
      (ops.foldl CustomStream_apply s).value = s.value := by
  intro ops
  induction ops with
  | nil => intro s _; rfl
  | cons op rest ih =>
    intro s hno
    cases op with
    | set_value v => simp [hasSetValue] at hno
    | peek => exact ih s (by simpa [hasSetValue] using hno)
    | upstreams => exact ih s (by simpa [hasSetValue] using hno)

/-! ## Embedding of `python/wingfoil/pandas_helpers.py` -/

/-- Syntax tree of the stream expression built by `_zip_streams` and
`stream_to_dataframe`: `base k` is an entry of the input dict,
`mapKey k s` is `s.map(lambda x: {k: x})`, `bimapAcc a b k` is
`bimap(a, b, lambda acc, val, k=key: {**acc, k: val})`, and `collectE s`
is `s.collect()`. -/
inductive SExpr where
  | base (name : String)
  | mapKey (k : String) (s : SExpr)
  | bimapAcc (a : SExpr) (b : SExpr) (k : String)
  | collectE (s : SExpr)
deriving DecidableEq, Repr

/-- Dict indexing `stream_dict[key]` for an association-list model of the
Python dict (total, as in Python the key is always present). -/
def lookupStream (d : List (String × SExpr)) (k : String) : SExpr :=
  (d.lookup k).getD (SExpr.base "")

/-- Embedding of `_zip_streams`: sorts the dict keys, raises `ValueError`
on an empty dict, seeds the accumulator with
`stream_dict[first_key].map(lambda x: {first_key: x})` and folds the
remaining sorted keys in via `bimap`. -/
def zip_streams (d : List (String × SExpr)) : Except String SExpr :=
  let sorted_keys := List.insertionSort (fun a b => a ≤ b) (d.map Prod.fst)
  match sorted_keys with
  | [] => Except.error "Cannot convert empty dict of streams"
  | first_key :: rest =>
      Except.ok (rest.foldl
        (fun acc key => SExpr.bimapAcc acc (lookupStream d key) key)
        (SExpr.mapKey first_key (lookupStream d first_key)))

/-- Embedding of the dict branch of `stream_to_dataframe`, instrumented
with the number of `stream.run(...)` invocations performed.  `runStream`
abstracts the engine: running the collected merged stream and peeking its
value.  A `ValueError` raised by `_zip_streams` propagates before any
`run` is reached. -/
def stream_to_dataframe_dict (d : List (String × SExpr))
    (runStream : SExpr → Except String (List Int)) :
    Except String (List Int) × Nat :=
  match zip_streams d with
  | Except.error e => (Except.error e, 0)
  | Except.ok s =>
      match runStream (SExpr.collectE s) with
      | Except.error e => (Except.error e, 1)
      | Except.ok v => (Except.ok v, 1)

/-- Python exceptions distinguished by `stream_to_dataframe`:
`AttributeError` (caught by its `try`/`except`) versus an error raised by
a node evaluation during `run` (any other exception, not caught). -/
inductive PyErr where
  | attributeError
  | evalError (msg : String)
deriving DecidableEq, Repr

/-- Abstract model of a built stream as seen by `stream_to_dataframe`:
whether some node evaluation raises during `run`, whether the terminal
node is a `collect`, and the collected data. -/
structure MStream where
  evalFailure : Option String
  collected : Bool
  data : List Int
deriving DecidableEq, Repr

/-- Running a stream: a node-evaluation error aborts the run and surfaces
to the caller; otherwise the run completes. -/
def MStream_run (s : MStream) : Except PyErr MStream :=
  match s.evalFailure with
  | some msg => Except.error (PyErr.evalError msg)
  | none => Except.ok s

/-- The `.collect()` chaining operation on the abstract stream. -/
def MStream_collect (s : MStream) : MStream :=
  { s with collected := true }

/-- The `peek_value` read: raises `AttributeError` when the stream was not
collected. -/
def MStream_peek_value (s : MStream) : Except PyErr (List Int) :=
  if s.collected then Except.ok s.data else Except.error PyErr.attributeError

/-- Embedding of the non-dict branch of `stream_to_dataframe` (lines
36-49), instrumented with the number of `stream.run(...)` invocations:
run the stream (errors propagate), try `peek_value`; on `AttributeError`
only, collect and run again; any other error propagates to the caller. -/
def stream_to_dataframe (s : MStream) : Except PyErr (List Int) × Nat :=
  match MStream_run s with
  | Except.error e => (Except.error e, 1)
  | Except.ok s1 =>
      match MStream_peek_value s1 with
      | Except.ok v => (Except.ok v, 1)
      | Except.error PyErr.attributeError =>
          let s2 := MStream_collect s1
          match MStream_run s2 with
          | Except.error e => (Except.error e, 2)
          | Except.ok s3 => (MStream_peek_value s3, 2)
      | Except.error (PyErr.evalError m) => (Except.error (PyErr.evalError m), 1)

/-! ## Model of the core engine

The `_wingfoil` native extension (node model, scheduler, operator
catalog) is not shipped inside the Python package tree; the definitions
below model it from the specification, sections 4.3 and 4.4. -/

/-- Modelled from the spec: one node of a linear operator pipeline, with
its per-node state, standing in for the missing `_wingfoil` engine nodes.
`counter next` is `ticker(period).count()` (a source firing on every tick,
producing the strictly increasing integers starting at 0); `map`,
`filter`, `limit`, `distinct` are the catalog operators of section 4.4
with their persistent state (`seen` produced values for `limit`, `last`
cached value for `distinct`). -/
inductive SNode where
  | counter (next : Nat)
  | map (f : Int → Int)
  | filter (p : Int → Bool)
  | limit (n : Nat) (seen : Nat)
  | distinct (last : Option Int)

/-- Modelled from the spec: one evaluation of a node in one cycle
(section 4.3 step 3 and the operator table of section 4.4).  The input is
the upstream event of this cycle (`none` when the upstream suppressed);
the result is the updated node, the event this node propagates, and
whether the node signals permanent exhaustion (only `limit` does, from
the cycle of its `n`-th produced value onward). -/
def stepNode : SNode → Option Int → SNode × Option Int × Bool
  | SNode.counter next, _ => (SNode.counter (next + 1), some (Int.ofNat next), false)
  | SNode.map f, ev => (SNode.map f, ev.map f, false)
  | SNode.filter p, ev =>
      (SNode.filter p,
        (match ev with
         | some v => if p v then some v else none
         | none => none),
        false)
  | SNode.limit n seen, ev =>
      (match ev with
       | some v =>
           if seen < n then
             (SNode.limit n (seen + 1), some v, decide (n ≤ seen + 1))
           else
             (SNode.limit n seen, none, decide (n ≤ seen))
       | none => (SNode.limit n seen, none, decide (n ≤ seen)))
  | SNode.distinct last, ev =>
      (match ev with
       | some v =>
           (match last with
            | none => (SNode.distinct (some v), some v, false)
            | some l =>
                if v = l then (SNode.distinct (some l), none, false)
                else (SNode.distinct (some v), some v, false))
       | none => (SNode.distinct last, none, false))

/-- Modelled from the spec: evaluating a pipeline of nodes in dependency
order within one cycle, threading each node's event to the next and
collecting the exhaustion signals of the walk. -/
def stepChain : List SNode → Option Int → List SNode × Option Int × Bool
  | [], ev => ([], ev, false)
  | nd :: rest, ev =>
      let s := stepNode nd ev
      let r := stepChain rest s.2.1
      (s.1 :: r.1, r.2.1, s.2.2 || r.2.2)

/-- Modelled from the spec: a linear graph with a terminal `collect()`
node; `collected` is the ordered sequence of every value the pipeline has
propagated so far (the collect node's cached value, read by
`peek_value`). -/
structure Graph where
  chain : List SNode
  collected : List Int

/-- Modelled from the spec: one scheduler cycle (section 4.3): evaluate
the chain in topological order, append the propagated event (if any) to
the terminal collect node, and report whether any node signalled
permanent exhaustion this cycle. -/
def stepGraph (g : Graph) : Graph × Bool :=
  let r := stepChain g.chain none
  ({ chain := r.1, collected := g.collected ++ r.2.1.toList }, r.2.2)

/-- Modelled from the spec: a historical run bounded by an explicit
`cycles` count — exactly `k` back-to-back cycles, no suspension. -/
def runCycles (g : Graph) : Nat → Graph
  | 0 => g
  | k + 1 => runCycles (stepGraph g).1 k

/-- Modelled from the spec: a historical run with neither `cycles` nor
`duration`, which stops at the end of the first cycle in which a source
signals permanent exhaustion (section 4.3 step 4).  The run is driven by
a fuel bound; `none` means the fuel ran out before exhaustion was
signalled, `some g` means the run terminated with final graph `g`. -/
def runHistorical (g : Graph) : Nat → Option Graph
  | 0 => none
  | fuel + 1 =>
      match stepGraph g with
      | (g2, true) => some g2
      | (g2, false) => runHistorical g2 fuel

/-- The per-cycle events a single node propagates when fed the given
upstream event sequence. -/
def nodeOutputs (nd : SNode) : List (Option Int) → List (Option Int)
  | [] => []
  | ev :: rest => (stepNode nd ev).2.1 :: nodeOutputs (stepNode nd ev).1 rest

/-- The per-cycle exhaustion signals a single node emits when fed the
given upstream event sequence. -/
def nodeExhausts (nd : SNode) : List (Option Int) → List Bool
  | [] => []
  | ev :: rest => (stepNode nd ev).2.2 :: nodeExhausts (stepNode nd ev).1 rest

/-- Number of produced (non-suppressed) events in an event sequence. -/
def producedCount (l : List (Option Int)) : Nat :=
  (l.filterMap id).length

/-- Values that `distinct()` propagates from a produced-value sequence
whose last propagated value is `l`: values equal to the last propagated
value are dropped, differing values propagate and become the new last. -/
def dedupFrom : Int → List Int → List Int
  | _, [] => []
  | l, v :: rest => if v = l then dedupFrom l rest else v :: dedupFrom v rest

/-- Values that `distinct()` propagates from a produced-value sequence
starting with no cached value: the first value always propagates, then
`dedupFrom` applies. -/
def dedupRuns : List Int → List Int
  | [] => []
  | v :: rest => v :: dedupFrom v rest

/-- The pipeline `ticker(0.1).count().filter(lambda x: x % 2 == 0)` of
the 7-cycle scenario, with the record of its propagated values. -/
def pipelineEvenFilter : Graph :=
  { chain := [SNode.counter 0, SNode.filter (fun v => decide (v % 2 = 0))],
    collected := [] }

/-- The pipeline `ticker(0.1).count().limit(5).collect()`. -/
def pipelineLimit5 : Graph :=
  { chain := [SNode.counter 0, SNode.limit 5 0], collected := [] }

theorem runHistorical_mono :
    ∀ (fuel : Nat) (g r : Graph), runHistorical g fuel = some r →
      ∀ fuel2, fuel ≤ fuel2 → runHistorical g fuel2 = some r := by
  intro fuel
  induction fuel with
  | zero => intro g r h; simp [runHistorical] at h
  | succ f ih =>
    intro g r h fuel2 hle
    obtain ⟨f2, rfl⟩ : ∃ f2, fuel2 = f2 + 1 := ⟨fuel2 - 1, by omega⟩
    rw [runHistorical] at h ⊢
    rcases hsg : stepGraph g with ⟨g2, b⟩
    rw [hsg] at h
    cases b
    · exact ih g2 r h f2 (by omega)
    · exact h

/-! ## Claim theorems -/

/-- C1, counterexample: constructing a user-defined node does perform a
hidden object-identity substitution — `CustomStream.__new__` returns the
`Stream` proxy wrapping the freshly constructed instance, not the
user-constructed object itself, so construction and registration are not
two separate phases. -/
theorem c1_counterexample :
    CustomStream_new none = PyStreamHandle.streamProxy (CustomStream_init none)
    ∧ CustomStream_new none ≠ PyStreamHandle.userObject (CustomStream_init none) :=
  ⟨rfl, by decide⟩

/-- C1, amended: for every argument, `CustomStream.__new__` constructs the
user instance, immediately wraps it in a `Stream` proxy during its own
construction, and returns that proxy in place of the user object. -/
theorem c1_new_returns_proxy (u : Option (List StreamRef)) :
    CustomStream_new u = PyStreamHandle.streamProxy (CustomStream_init u) := rfl

/-- C2: a user-defined node that has not overridden `cycle` raises on
every invocation of `cycle()` — in particular the first — and never
returns a value, so no stale/absent value can propagate. -/
theorem c2_default_cycle_raises :
    ∀ s : CustomState,
      CustomStream_cycle s = Except.error "cycle must be implemented in derived class"
      ∧ ∀ r : CustomState × Bool, CustomStream_cycle s ≠ Except.ok r := by
  intro s
  refine ⟨rfl, fun r h => ?_⟩
  simp [CustomStream_cycle] at h

/-- C7: merging zero streams fails at build time — `_zip_streams` raises
`ValueError` on the empty dict, and in the dict branch of
`stream_to_dataframe` this error surfaces before any `run` is invoked
(zero run invocations), hence before any node is evaluated. -/
theorem c7_empty_dict_build_error :
    zip_streams ([] : List (String × SExpr))
        = Except.error "Cannot convert empty dict of streams"
    ∧ ∀ runStream, stream_to_dataframe_dict [] runStream
        = (Except.error "Cannot convert empty dict of streams", 0) :=
  ⟨rfl, fun _ => rfl⟩

/-- C8: when a node evaluation raises during `run`, `stream_to_dataframe`
surfaces exactly that error to its caller — it is not swallowed or
converted to a default value — and performs exactly one `run` invocation:
the failed run is never re-executed. -/
theorem c8_run_error_surfaces_without_retry (s : MStream) (msg : String)
    (h : s.evalFailure = some msg) :
    stream_to_dataframe s = (Except.error (PyErr.evalError msg), 1) := by
  simp [stream_to_dataframe, MStream_run, h]

theorem c8_witness :
    stream_to_dataframe { evalFailure := some "boom", collected := false, data := [] }
      = (Except.error (PyErr.evalError "boom"), 1) :=
  c8_run_error_surfaces_without_retry
    { evalFailure := some "boom", collected := false, data := [] } "boom" rfl

/-- C10: immediately after construction `peek()` returns `None` for every
`upstreams` argument; with no argument `upstreams()` returns the empty
list; and after `set_value(v)`, `peek()` returns exactly `v` through any
further sequence of method calls that contains no `set_value`. -/
theorem c10_custom_stream_peek_lifecycle :
    (∀ u, CustomStream_peek (CustomStream_init u) = none)
    ∧ CustomStream_upstreams (CustomStream_init none) = []
    ∧ ∀ (s : CustomState) (v : Int) (ops : List CSOp), hasSetValue ops = false →
        CustomStream_peek (ops.foldl CustomStream_apply (CustomStream_set_value s v))
          = some v := by
  refine ⟨fun u => rfl, rfl, ?_⟩
  intro s v ops hno
  unfold CustomStream_peek
  rw [value_const_of_no_set_value ops _ hno]
  rfl

theorem c10_witness :
    CustomStream_peek ([CSOp.peek, CSOp.upstreams].foldl CustomStream_apply
        (CustomStream_set_value (CustomStream_init none) 7)) = some 7 :=
  c10_custom_stream_peek_lifecycle.2.2 (CustomStream_init none) 7
    [CSOp.peek, CSOp.upstreams] (by decide)

/-- C3, counterexample: running
`ticker(0.1).count().filter(lambda x: x % 2 == 0)` for 7 cycles
historically does not yield `[2, 4, 6]`: the count starts at 0, so the
seven counts are 0..6 and the even ones are `[0, 2, 4, 6]`. -/
theorem c3_counterexample :
    (runCycles pipelineEvenFilter 7).collected ≠ [2, 4, 6] := by decide

/-- C3, amended: running the pipeline for 7 cycles historically yields
exactly `[0, 2, 4, 6]`, the even-filter applied to the counts 0..6
inclusive, each cycle firing the ticker once. -/
theorem c3_even_filter_seven_cycles :
    (runCycles pipelineEvenFilter 7).collected = [0, 2, 4, 6]
    ∧ (runCycles pipelineEvenFilter 7).collected
        = ((List.range 7).map Int.ofNat).filter (fun v => decide (v % 2 = 0)) :=
  ⟨by decide, by decide⟩

/-- C4: the historical run of `ticker(0.1).count().limit(5).collect()`
with no realtime flag and no cycle bound terminates (for every fuel bound
of at least 5 cycles it stops by exhaustion), and the terminal collect
node's peeked value is `[0, 1, 2, 3, 4]`. -/
theorem c4_limit5_collect_terminates (fuel : Nat) (h : 5 ≤ fuel) :
    (runHistorical pipelineLimit5 fuel).map Graph.collected = some [0, 1, 2, 3, 4] := by
  have h5 : runHistorical pipelineLimit5 5 =
      some { chain := [SNode.counter 5, SNode.limit 5 5], collected := [0, 1, 2, 3, 4] } := rfl
  rw [runHistorical_mono 5 _ _ h5 fuel h]
  rfl

theorem c4_witness :
    5 ≤ 5 ∧ (runHistorical pipelineLimit5 5).map Graph.collected = some [0, 1, 2, 3, 4] :=
  ⟨by decide, c4_limit5_collect_terminates 5 (by decide)⟩

theorem limit_outputs (n : Nat) (ins : List (Option Int)) :
    ∀ c : Nat, (nodeOutputs (SNode.limit n c) ins).filterMap id
      = (ins.filterMap id).take (n - c) := by
  induction ins with
  | nil => intro c; simp [nodeOutputs]
  | cons ev rest ih =>
    intro c
    cases ev with
    | none => simpa [nodeOutputs, stepNode] using ih c
    | some v =>
      by_cases hc : c < n
      · have hnc : n - c = (n - (c + 1)) + 1 := by omega
        simp [nodeOutputs, stepNode, hc, ih (c + 1), hnc]
      · have hnc : n - c = 0 := by omega
        simp [nodeOutputs, stepNode, hc, ih c, hnc]

theorem limit_exhaust_iff (n : Nat) (ins : List (Option Int)) :
    ∀ (i c : Nat), i < ins.length →
      (((nodeExhausts (SNode.limit n c) ins).getD i false) = true
        ↔ n ≤ c + producedCount (ins.take (i + 1))) := by
  induction ins with
  | nil => intro i c hi; simp at hi
  | cons ev rest ih =>
    intro i c hi
    cases i with
    | zero =>
      cases ev with
      | none => simp [nodeExhausts, stepNode, producedCount]
      | some v =>
        by_cases hc : c < n
        · simp [nodeExhausts, stepNode, hc, producedCount]
        · simp [nodeExhausts, stepNode, hc, producedCount]
          omega
    | succ j =>
      have hj : j < rest.length := by simpa using hi
      cases ev with
      | none => simpa [nodeExhausts, stepNode, producedCount] using ih j c hj
      | some v =>
        by_cases hc : c < n
        · rw [show nodeExhausts (SNode.limit n c) (some v :: rest)
              = decide (n ≤ c + 1) :: nodeExhausts (SNode.limit n (c + 1)) rest from by
            simp [nodeExhausts, stepNode, hc]]
          simp only [List.getD_cons_succ]
          rw [ih j (c + 1) hj]
          simp [producedCount]
          omega
        · rw [show nodeExhausts (SNode.limit n c) (some v :: rest)
              = decide (n ≤ c) :: nodeExhausts (SNode.limit n c) rest from by
            simp [nodeExhausts, stepNode, hc]]
          simp only [List.getD_cons_succ]
          rw [ih j c hj]
          simp [producedCount]
          omega

/-- C5: for every `n ≥ 1` and every upstream event sequence with at least
`n` produced values, `limit(n)` propagates exactly the first `n` produced
upstream values (never an `(n+1)`-th on any cycle), and its permanent
exhaustion signal holds at a cycle exactly when at least `n` values have
been produced by then — i.e., it first fires on the cycle of the `n`-th
produced value and stays on thereafter. -/
theorem c5_limit_exactly_n (n : Nat) (ins : List (Option Int)) (hn : 1 ≤ n)
    (hins : n ≤ producedCount ins) :
    (nodeOutputs (SNode.limit n 0) ins).filterMap id = (ins.filterMap id).take n
    ∧ ((nodeOutputs (SNode.limit n 0) ins).filterMap id).length = n
    ∧ ∀ i, i < ins.length →
        (((nodeExhausts (SNode.limit n 0) ins).getD i false) = true
          ↔ n ≤ producedCount (ins.take (i + 1))) := by
  have houts : (nodeOutputs (SNode.limit n 0) ins).filterMap id
      = (ins.filterMap id).take n := by simpa using limit_outputs n ins 0
  refine ⟨houts, ?_, ?_⟩
  · rw [houts]
    simp only [producedCount] at hins
    simp [List.length_take]
    omega
  · intro i hi
    simpa using limit_exhaust_iff n ins i 0 hi

theorem c5_witness :
    (nodeOutputs (SNode.limit 2 0) [some 5, none, some 7, some 9]).filterMap id = [5, 7]
    ∧ (nodeExhausts (SNode.limit 2 0) [some 5, none, some 7, some 9]).getD 2 false = true := by
  have h := c5_limit_exactly_n 2 [some 5, none, some 7, some 9] (by decide) (by decide)
  refine ⟨?_, ?_⟩
  · rw [h.1]; rfl
  · exact (h.2.2 2 (by decide)).mpr (by decide)

theorem distinct_from (ins : List (Option Int)) :
    ∀ l : Int, (nodeOutputs (SNode.distinct (some l)) ins).filterMap id
      = dedupFrom l (ins.filterMap id) := by
  induction ins with
  | nil => intro l; rfl
  | cons ev rest ih =>
    intro l
    cases ev with
    | none => simpa [nodeOutputs, stepNode] using ih l
    | some v =>
      by_cases hv : v = l
      · subst hv
        simp [nodeOutputs, stepNode, dedupFrom, ih v]
      · simp [nodeOutputs, stepNode, dedupFrom, hv, ih v]

/-- C6: `distinct()` is idempotent over repeated equal inputs: over every
upstream event sequence, the values it propagates are exactly the
produced upstream values with every run of repeats of the last propagated
value collapsed — the first produced value always propagates, equal
values then propagate nothing until a differing value appears, which
propagates. -/
theorem c6_distinct_idempotent (ins : List (Option Int)) :
    (nodeOutputs (SNode.distinct none) ins).filterMap id
      = dedupRuns (ins.filterMap id) := by
  induction ins with
  | nil => rfl
  | cons ev rest ih =>
    cases ev with
    | none => simpa [nodeOutputs, stepNode] using ih
    | some v => simp [nodeOutputs, stepNode, dedupRuns, distinct_from rest v]

/-- C9: `_zip_streams` is deterministic in the key ordering — two dicts
with the same key-to-stream mapping, however their entries are ordered,
build the same merged stream, because the keys are processed in sorted
order (the first sorted key seeds the accumulator and the remaining
sorted keys are folded in via `bimap` in that order). -/
theorem c9_zip_streams_order_independent (d₁ d₂ : List (String × SExpr))
    (hperm : (d₁.map Prod.fst).Perm (d₂.map Prod.fst))
    (hlook : ∀ k ∈ d₁.map Prod.fst, d₁.lookup k = d₂.lookup k) :
    zip_streams d₁ = zip_streams d₂ := by
  have hsorted : List.insertionSort (fun a b => a ≤ b) (d₁.map Prod.fst)
      = List.insertionSort (fun a b => a ≤ b) (d₂.map Prod.fst) := by
    have hs1 := List.sorted_insertionSort (fun a b : String => a ≤ b) (d₁.map Prod.fst)
    have hs2 := List.sorted_insertionSort (fun a b : String => a ≤ b) (d₂.map Prod.fst)
    have hp : (List.insertionSort (fun a b : String => a ≤ b) (d₁.map Prod.fst)).Perm
        (List.insertionSort (fun a b : String => a ≤ b) (d₂.map Prod.fst)) :=
      ((List.perm_insertionSort _ _).trans hperm).trans
        (List.perm_insertionSort _ _).symm
    exact List.eq_of_perm_of_sorted hp hs1 hs2
  simp only [zip_streams]
  rw [hsorted]
  rcases hks : List.insertionSort (fun a b => a ≤ b) (d₂.map Prod.fst)
    with _ | ⟨first_key, rest⟩
  · rfl
  · have hmem : ∀ k ∈ first_key :: rest, k ∈ d₁.map Prod.fst := by
      intro k hk
      have hk1 : k ∈ List.insertionSort (fun a b => a ≤ b) (d₁.map Prod.fst) := by
        rw [hsorted, hks]; exact hk
      exact (List.perm_insertionSort _ _).subset hk1
    have hinit : lookupStream d₁ first_key = lookupStream d₂ first_key := by
      unfold lookupStream
      rw [hlook first_key (hmem first_key (List.mem_cons_self _ _))]
    dsimp only
    rw [hinit]
    congr 1
    apply List.foldl_ext
    intro acc b hb
    unfold lookupStream
    rw [hlook b (hmem b (List.mem_cons_of_mem _ hb))]

theorem c9_witness :
    zip_streams [("b", SExpr.base "B"), ("a", SExpr.base "A")]
      = zip_streams [("a", SExpr.base "A"), ("b", SExpr.base "B")] :=
  c9_zip_streams_order_independent
    [("b", SExpr.base "B"), ("a", SExpr.base "A")]
    [("a", SExpr.base "A"), ("b", SExpr.base "B")]
    (by decide) (by decide)

end Wingfoil
